import Mathlib

/-!
Verification development for the MilPy flight-simulator core: the haversine
angle kernel (milpy/math.py), the sub-solar position calculator, the
day/night terminator map builder and the flight/camera path planner
(milpy/travel/flight_simulator.py). Machine floats are modelled as real
numbers; numpy arrays are modelled as index functions or Lean lists.
-/

noncomputable section

namespace MilPy

/-- Models numpy degrees: converts radians to degrees. -/
def degrees (x : ℝ) : ℝ := x * (180 / Real.pi)

/-- Embedding of milpy.math.haversine: ha is the squared half-angle sine in
latitude, hb the longitude term weighted by the two cosines, and the result
is in degrees. All inputs are radians. -/
def haversine (lat0 lon0 lat1 lon1 : ℝ) : ℝ :=
  degrees (2 * Real.arcsin (Real.sqrt
    (Real.sin ((lat0 - lat1) / 2) ^ 2 +
     Real.cos lat1 * Real.cos lat0 * Real.sin ((lon0 - lon1) / 2) ^ 2)))

/-- Per-cell value of _DayNightMapCreator.terminator_mask: indices at or
below 90 are overwritten with 0 and indices above 108 with 1 after the
shift-and-scale, so the value fed to the squared cosine is the clamped
band parameter. -/
def terminator_mask_scalar (s : ℝ) : ℝ :=
  Real.cos ((if s ≤ 90 then (0 : ℝ) else if 108 < s then 1 else (s - 90) / 18)
    * (Real.pi / 2)) ^ 2

/-- Embedding of _DayNightMapCreator.terminator_mask on an H by W grid of
solar zenith angles: the per-cell mask value, replicated over the three
color channels and vertically flipped (np.flipud) so output row i reads
input row H - 1 - i. -/
def terminator_mask (H W : ℕ) (sza_arr : ℕ → ℕ → ℝ) : ℕ → ℕ → ℕ → ℝ :=
  fun i j _c => terminator_mask_scalar (sza_arr (H - 1 - i) j)

/-- Contents of the caller-owned sza buffer after terminator_mask returns:
the in-place -=, /=, fancy-index assignments and *= steps leave the buffer
holding the clamped band parameter times pi over 2 (the final squared
cosine builds a fresh array and does not write back). -/
def terminator_mask_arg_after (sza_arr : ℕ → ℕ → ℝ) : ℕ → ℕ → ℝ :=
  fun i j =>
    (if sza_arr i j ≤ 90 then (0 : ℝ) else if 108 < sza_arr i j then 1
      else (sza_arr i j - 90) / 18) * (Real.pi / 2)

/-- State-passing embedding of terminator_mask: first component is the
post-call contents of the argument buffer, second the returned mask. -/
def terminator_mask_state (H W : ℕ) (sza_arr : ℕ → ℕ → ℝ) :
    (ℕ → ℕ → ℝ) × (ℕ → ℕ → ℕ → ℝ) :=
  (terminator_mask_arg_after sza_arr, terminator_mask H W sza_arr)

/-- Embedding of _DayNightMapCreator.map: day texture times the mask plus
night texture times one minus the mask, elementwise. -/
def day_night_map (H W : ℕ) (day_map night_map : ℕ → ℕ → ℕ → ℝ)
    (sza_arr : ℕ → ℕ → ℝ) : ℕ → ℕ → ℕ → ℝ :=
  fun i j c =>
    day_map i j c * terminator_mask H W sza_arr i j c +
    night_map i j c * (1 - terminator_mask H W sza_arr i j c)

/-- The blend as the spec words it, for comparison with day_night_map:
day texture times one minus the weight plus night texture times the
weight, where the weight is the terminator mask. -/
def day_night_map_spec_words (H W : ℕ) (day_map night_map : ℕ → ℕ → ℕ → ℝ)
    (sza_arr : ℕ → ℕ → ℝ) : ℕ → ℕ → ℕ → ℝ :=
  fun i j c =>
    day_map i j c * (1 - terminator_mask H W sza_arr i j c) +
    night_map i j c * terminator_mask H W sza_arr i j c

/-- Helper: squared cosines are at most one. -/
lemma terminator_mask_scalar_le_one (s : ℝ) : terminator_mask_scalar s ≤ 1 := by
  unfold terminator_mask_scalar
  have h := Real.neg_one_le_cos
    ((if s ≤ 90 then (0 : ℝ) else if 108 < s then 1 else (s - 90) / 18)
      * (Real.pi / 2))
  have h2 := Real.cos_le_one
    ((if s ≤ 90 then (0 : ℝ) else if 108 < s then 1 else (s - 90) / 18)
      * (Real.pi / 2))
  nlinarith

/-- Helper: the mask value is nonnegative. -/
lemma terminator_mask_scalar_nonneg (s : ℝ) : 0 ≤ terminator_mask_scalar s := by
  unfold terminator_mask_scalar
  positivity

/-- Helper: on the day side the mask value is one. -/
lemma terminator_mask_scalar_day {s : ℝ} (h : s ≤ 90) :
    terminator_mask_scalar s = 1 := by
  unfold terminator_mask_scalar
  rw [if_pos h, zero_mul, Real.cos_zero, one_pow]

/-- Helper: on the deep night side the mask value is zero. -/
lemma terminator_mask_scalar_night {s : ℝ} (h : 108 < s) :
    terminator_mask_scalar s = 0 := by
  unfold terminator_mask_scalar
  rw [if_neg (by linarith), if_pos h, one_mul, Real.cos_pi_div_two]
  norm_num

/-- Helper: inside the twilight band the mask value is the squared cosine
of the scaled band parameter. -/
lemma terminator_mask_scalar_band {s : ℝ} (h1 : 90 < s) (h2 : s ≤ 108) :
    terminator_mask_scalar s = Real.cos ((s - 90) / 18 * (Real.pi / 2)) ^ 2 := by
  unfold terminator_mask_scalar
  rw [if_neg (by linarith), if_neg (by linarith)]

/-- C1 counterexample: the claim says the mask weight is 0 for SZA at most
90 degrees, but at SZA = 90 the code overwrites the cell with 0 before the
squared cosine, producing cos(0) squared = 1, not 0. -/
theorem terminator_mask_at_90_is_one :
    terminator_mask 1 1 (fun _ _ => (90 : ℝ)) 0 0 0 = 1 ∧ (1 : ℝ) ≠ 0 := by
  constructor
  · unfold terminator_mask
    exact terminator_mask_scalar_day (by norm_num)
  · norm_num

/-- C1 amended: the terminator mask is the day-side weight, not the night
weight: per cell it is 1 for SZA at most 90, 0 for SZA above 108, and
cos squared of (SZA - 90)/18 times pi/2 in the twilight band; in
particular it is 1 at SZA = 90, 0 at SZA = 108, and 1/2 at SZA = 99.
The mask row i reads SZA row H - 1 - i (the vertical flip). -/
theorem terminator_mask_values (H W : ℕ) (sza_arr : ℕ → ℕ → ℝ) (i j c : ℕ) :
    (sza_arr (H - 1 - i) j ≤ 90 → terminator_mask H W sza_arr i j c = 1) ∧
    (108 < sza_arr (H - 1 - i) j → terminator_mask H W sza_arr i j c = 0) ∧
    (90 < sza_arr (H - 1 - i) j → sza_arr (H - 1 - i) j ≤ 108 →
      terminator_mask H W sza_arr i j c =
        Real.cos ((sza_arr (H - 1 - i) j - 90) / 18 * (Real.pi / 2)) ^ 2) ∧
    terminator_mask_scalar 90 = 1 ∧
    terminator_mask_scalar 108 = 0 ∧
    terminator_mask_scalar 99 = 1 / 2 := by
  refine ⟨fun h => terminator_mask_scalar_day h,
    fun h => terminator_mask_scalar_night h,
    fun h1 h2 => terminator_mask_scalar_band h1 h2,
    terminator_mask_scalar_day (by norm_num), ?_, ?_⟩
  · rw [terminator_mask_scalar_band (by norm_num) (by norm_num)]
    norm_num [Real.cos_pi_div_two]
  · rw [terminator_mask_scalar_band (by norm_num) (by norm_num)]
    have h9 : ((99 : ℝ) - 90) / 18 * (Real.pi / 2) = Real.pi / 4 := by ring
    rw [h9, Real.cos_pi_div_four, div_pow, Real.sq_sqrt (by norm_num : (0:ℝ) ≤ 2)]
    norm_num

/-- C1 witness: the amended mask facts evaluated on a concrete one-cell
field deep in the night side. -/
theorem terminator_mask_values_witness :
    terminator_mask 1 1 (fun _ _ => (120 : ℝ)) 0 0 0 = 0 ∧
    terminator_mask_scalar 99 = 1 / 2 :=
  ⟨(terminator_mask_values 1 1 (fun _ _ => (120 : ℝ)) 0 0 0).2.1 (by norm_num),
   (terminator_mask_values 1 1 (fun _ _ => (120 : ℝ)) 0 0 0).2.2.2.2.2⟩

/-- C2 counterexample: on a one-cell day texture of 0 and night texture of
1 with SZA 0 (day side, mask 1), the code blends to the day value 0 while
the formula claimed by the spec (day times one minus weight plus night
times weight) gives 1. -/
theorem day_night_map_differs_from_spec_words :
    day_night_map 1 1 (fun _ _ _ => (0 : ℝ)) (fun _ _ _ => (1 : ℝ))
        (fun _ _ => (0 : ℝ)) 0 0 0 ≠
      day_night_map_spec_words 1 1 (fun _ _ _ => (0 : ℝ)) (fun _ _ _ => (1 : ℝ))
        (fun _ _ => (0 : ℝ)) 0 0 0 := by
  unfold day_night_map day_night_map_spec_words terminator_mask
  rw [terminator_mask_scalar_day (by norm_num)]
  norm_num

/-- C2 amended: the blended map equals day texture times the weight plus
night texture times one minus the weight, where the weight is the
terminator mask (the mask is the day contribution); consequently if the
SZA field is everywhere at most 90 (mask all one) the output equals the
day texture exactly, and if everywhere above 108 (mask all zero) it
equals the night texture exactly. -/
theorem day_night_map_blend (H W : ℕ) (day_map night_map : ℕ → ℕ → ℕ → ℝ)
    (sza_arr : ℕ → ℕ → ℝ) (i j c : ℕ) :
    day_night_map H W day_map night_map sza_arr i j c =
      day_map i j c * terminator_mask H W sza_arr i j c +
      night_map i j c * (1 - terminator_mask H W sza_arr i j c) ∧
    ((∀ a b, sza_arr a b ≤ 90) →
      day_night_map H W day_map night_map sza_arr i j c = day_map i j c) ∧
    ((∀ a b, 108 < sza_arr a b) →
      day_night_map H W day_map night_map sza_arr i j c = night_map i j c) := by
  refine ⟨rfl, fun h => ?_, fun h => ?_⟩
  · unfold day_night_map terminator_mask
    rw [terminator_mask_scalar_day (h _ _)]
    ring
  · unfold day_night_map terminator_mask
    rw [terminator_mask_scalar_night (h _ _)]
    ring

/-- C2 witness: the amended blend facts on concrete one-cell textures with
an all-day SZA field and an all-night SZA field. -/
theorem day_night_map_blend_witness :
    day_night_map 1 1 (fun _ _ _ => (3 : ℝ)) (fun _ _ _ => (7 : ℝ))
        (fun _ _ => (40 : ℝ)) 0 0 0 = 3 ∧
    day_night_map 1 1 (fun _ _ _ => (3 : ℝ)) (fun _ _ _ => (7 : ℝ))
        (fun _ _ => (120 : ℝ)) 0 0 0 = 7 :=
  ⟨(day_night_map_blend 1 1 (fun _ _ _ => (3 : ℝ)) (fun _ _ _ => (7 : ℝ))
      (fun _ _ => (40 : ℝ)) 0 0 0).2.1 (fun _ _ => by norm_num),
   (day_night_map_blend 1 1 (fun _ _ _ => (3 : ℝ)) (fun _ _ _ => (7 : ℝ))
      (fun _ _ => (120 : ℝ)) 0 0 0).2.2 (fun _ _ => by norm_num)⟩

/-- C4 confirmed: for any day and night textures with all samples in
the unit interval and any SZA field (hence any sub-solar position), every
pixel of the blended map lies in the unit interval: the mask weights lie
in the unit interval and the blend is a convex combination. -/
theorem day_night_map_range (H W : ℕ) (day_map night_map : ℕ → ℕ → ℕ → ℝ)
    (sza_arr : ℕ → ℕ → ℝ)
    (hday : ∀ i j c, 0 ≤ day_map i j c ∧ day_map i j c ≤ 1)
    (hnight : ∀ i j c, 0 ≤ night_map i j c ∧ night_map i j c ≤ 1)
    (i j c : ℕ) :
    0 ≤ day_night_map H W day_map night_map sza_arr i j c ∧
    day_night_map H W day_map night_map sza_arr i j c ≤ 1 := by
  obtain ⟨hd0, hd1⟩ := hday i j c
  obtain ⟨hn0, hn1⟩ := hnight i j c
  have hw0 := terminator_mask_scalar_nonneg (sza_arr (H - 1 - i) j)
  have hw1 := terminator_mask_scalar_le_one (sza_arr (H - 1 - i) j)
  unfold day_night_map terminator_mask
  constructor <;> nlinarith

/-- C4 witness: the range invariant evaluated on concrete constant
textures one half and one quarter with a twilight SZA field. -/
theorem day_night_map_range_witness :
    0 ≤ day_night_map 1 1 (fun _ _ _ => (1 / 2 : ℝ)) (fun _ _ _ => (1 / 4 : ℝ))
        (fun _ _ => (99 : ℝ)) 0 0 0 ∧
    day_night_map 1 1 (fun _ _ _ => (1 / 2 : ℝ)) (fun _ _ _ => (1 / 4 : ℝ))
        (fun _ _ => (99 : ℝ)) 0 0 0 ≤ 1 :=
  day_night_map_range 1 1 (fun _ _ _ => (1 / 2 : ℝ)) (fun _ _ _ => (1 / 4 : ℝ))
    (fun _ _ => (99 : ℝ))
    (fun _ _ _ => by norm_num) (fun _ _ _ => by norm_num) 0 0 0

/-- Helper: the squared half-angle sine is unchanged when the difference
is reversed. -/
lemma sin_half_diff_sq (a b : ℝ) :
    Real.sin ((a - b) / 2) ^ 2 = Real.sin ((b - a) / 2) ^ 2 := by
  rw [show (a - b) / 2 = -((b - a) / 2) by ring, Real.sin_neg]
  ring

/-- Helper: the haversine output is nonnegative. -/
lemma haversine_nonneg (lat0 lon0 lat1 lon1 : ℝ) :
    0 ≤ haversine lat0 lon0 lat1 lon1 := by
  unfold haversine degrees
  have h1 : 0 ≤ Real.arcsin (Real.sqrt
      (Real.sin ((lat0 - lat1) / 2) ^ 2 +
       Real.cos lat1 * Real.cos lat0 * Real.sin ((lon0 - lon1) / 2) ^ 2)) :=
    Real.arcsin_nonneg.mpr (Real.sqrt_nonneg _)
  have h2 : (0 : ℝ) < 180 / Real.pi := by positivity
  nlinarith

/-- Helper: the haversine output is at most 180 degrees, since arcsin is
bounded above by pi over 2. -/
lemma haversine_le_180 (lat0 lon0 lat1 lon1 : ℝ) :
    haversine lat0 lon0 lat1 lon1 ≤ 180 := by
  unfold haversine degrees
  have h1 : Real.arcsin (Real.sqrt
      (Real.sin ((lat0 - lat1) / 2) ^ 2 +
       Real.cos lat1 * Real.cos lat0 * Real.sin ((lon0 - lon1) / 2) ^ 2)) ≤
      Real.pi / 2 := Real.arcsin_le_pi_div_two _
  have h2 : (0 : ℝ) < 180 / Real.pi := by positivity
  have h3 : Real.pi * (180 / Real.pi) = 180 := by
    field_simp
  nlinarith

/-- C5 confirmed: for latitudes in the closed interval from minus pi/2 to
pi/2 radians and any longitudes, the haversine angular distance is
symmetric under swapping the two points, is 0 when the points coincide,
lies in the closed interval from 0 to 180 degrees, and equals exactly 180
for the antipodal equatorial pair (0, 0) and (0, pi). -/
theorem haversine_properties (lat0 lon0 lat1 lon1 : ℝ)
    (h0l : -(Real.pi / 2) ≤ lat0) (h0u : lat0 ≤ Real.pi / 2)
    (h1l : -(Real.pi / 2) ≤ lat1) (h1u : lat1 ≤ Real.pi / 2) :
    haversine lat0 lon0 lat1 lon1 = haversine lat1 lon1 lat0 lon0 ∧
    haversine lat0 lon0 lat0 lon0 = 0 ∧
    0 ≤ haversine lat0 lon0 lat1 lon1 ∧
    haversine lat0 lon0 lat1 lon1 ≤ 180 ∧
    haversine 0 0 0 Real.pi = 180 := by
  refine ⟨?_, ?_, haversine_nonneg _ _ _ _, haversine_le_180 _ _ _ _, ?_⟩
  · unfold haversine
    rw [sin_half_diff_sq lat0 lat1, sin_half_diff_sq lon0 lon1,
      mul_comm (Real.cos lat1) (Real.cos lat0)]
  · unfold haversine degrees
    simp
  · unfold haversine degrees
    rw [show ((0 : ℝ) - Real.pi) / 2 = -(Real.pi / 2) by ring]
    simp only [sub_self, zero_div, Real.sin_zero, Real.sin_neg,
      Real.sin_pi_div_two, Real.cos_zero]
    norm_num [Real.sqrt_one, Real.arcsin_one]
    field_simp

/-- C5 witness: the haversine facts at the antipodal equatorial pair. -/
theorem haversine_properties_witness :
    haversine 0 0 0 Real.pi = haversine 0 Real.pi 0 0 ∧
    haversine 0 0 0 Real.pi = 180 :=
  ⟨(haversine_properties 0 0 0 Real.pi (by linarith [Real.pi_pos])
      (by linarith [Real.pi_pos]) (by linarith [Real.pi_pos])
      (by linarith [Real.pi_pos])).1,
   (haversine_properties 0 0 0 Real.pi (by linarith [Real.pi_pos])
      (by linarith [Real.pi_pos]) (by linarith [Real.pi_pos])
      (by linarith [Real.pi_pos])).2.2.2.2⟩

/-- C9 counterexample: terminator_mask is not pure in its argument. For a
one-cell SZA field holding 100, the buffer holds (100 - 90)/18 times pi/2
after the call, which is below 2 and hence not the original 100. -/
theorem terminator_mask_mutates_argument :
    (terminator_mask_state 1 1 (fun _ _ => (100 : ℝ))).1 0 0 ≠
      (fun _ _ => (100 : ℝ)) 0 0 := by
  simp only [terminator_mask_state, terminator_mask_arg_after]
  rw [if_neg (by norm_num), if_neg (by norm_num)]
  have hpi := Real.pi_lt_d2
  have hpi0 := Real.pi_pos
  intro h
  nlinarith

/-- C9 amended: terminator_mask overwrites the contents of its SZA
argument in place: after the call, a cell whose zenith angle lay strictly
inside the twilight band holds the scaled band parameter
(SZA - 90)/18 times pi/2, which always differs from the original value,
while the returned mask is still computed from the original contents. -/
theorem terminator_mask_argument_after (s : ℝ) (h1 : 90 < s) (h2 : s < 108) :
    (terminator_mask_state 1 1 (fun _ _ => s)).1 0 0 =
      (s - 90) / 18 * (Real.pi / 2) ∧
    (terminator_mask_state 1 1 (fun _ _ => s)).1 0 0 ≠ s ∧
    (terminator_mask_state 1 1 (fun _ _ => s)).2 0 0 0 =
      terminator_mask_scalar s := by
  have heq : (terminator_mask_state 1 1 (fun _ _ => s)).1 0 0 =
      (s - 90) / 18 * (Real.pi / 2) := by
    simp only [terminator_mask_state, terminator_mask_arg_after]
    rw [if_neg (by linarith), if_neg (by linarith)]
  refine ⟨heq, ?_, rfl⟩
  rw [heq]
  have hpi := Real.pi_lt_d2
  have hpi0 := Real.pi_pos
  intro h
  nlinarith

/-- C9 witness: the mutation facts evaluated at the twilight zenith angle
100. -/
theorem terminator_mask_argument_after_witness :
    (terminator_mask_state 1 1 (fun _ _ => (100 : ℝ))).1 0 0 =
      (100 - 90) / 18 * (Real.pi / 2) ∧
    (terminator_mask_state 1 1 (fun _ _ => (100 : ℝ))).1 0 0 ≠ 100 :=
  ⟨(terminator_mask_argument_after 100 (by norm_num) (by norm_num)).1,
   (terminator_mask_argument_after 100 (by norm_num) (by norm_num)).2.1⟩

/-- Embedding of _calculate_subsolar_position, abstracted over the
ephemeris outputs: ra is the solar right ascension, sidereal the Greenwich
sidereal time and dec the solar declination, all in radians as delivered
by the ephemeris library. The result is the pair (latitude, longitude) in
degrees after the single conditional 360-degree correction. -/
def calculate_subsolar_position (ra sidereal dec : ℝ) : ℝ × ℝ :=
  (degrees dec,
    if degrees (ra - sidereal) < -180 then degrees (ra - sidereal) + 360
    else if 180 < degrees (ra - sidereal) then degrees (ra - sidereal) - 360
    else degrees (ra - sidereal))

/-- C8 counterexample: with right ascension 0 and sidereal time pi (both
inside the ephemeris range from 0 up to but excluding 2 pi), the raw
difference in degrees is exactly -180, neither correction branch fires,
and the returned longitude is -180, which does not lie in the half-open
interval from -180 exclusive to 180 inclusive. -/
theorem subsolar_longitude_can_be_minus_180 :
    (0 : ℝ) ≤ 0 ∧ (0 : ℝ) < 2 * Real.pi ∧
    (0 : ℝ) ≤ Real.pi ∧ Real.pi < 2 * Real.pi ∧
    (calculate_subsolar_position 0 Real.pi 0).2 = -180 ∧
    ¬ (-180 < (calculate_subsolar_position 0 Real.pi 0).2) := by
  have hpi := Real.pi_pos
  have hraw : degrees ((0 : ℝ) - Real.pi) = -180 := by
    unfold degrees
    field_simp
    ring
  refine ⟨le_refl 0, by linarith, le_of_lt hpi, by linarith, ?_, ?_⟩
  · unfold calculate_subsolar_position
    rw [hraw, if_neg (by norm_num), if_neg (by norm_num)]
  · unfold calculate_subsolar_position
    rw [hraw, if_neg (by norm_num), if_neg (by norm_num)]
    norm_num

/-- C8 amended: for ephemeris outputs with right ascension and sidereal
time in the interval from 0 up to but excluding 2 pi, the returned
longitude is the right ascension minus the sidereal time converted to
degrees with at most one 360-degree correction (add 360 if the raw value
is below -180, subtract 360 if above 180), and it always lies in the
closed interval from -180 to 180 (the value -180 itself is attainable);
the returned latitude is the declination converted to degrees. -/
theorem subsolar_position_spec (ra sidereal dec : ℝ)
    (hra0 : 0 ≤ ra) (hra1 : ra < 2 * Real.pi)
    (hst0 : 0 ≤ sidereal) (hst1 : sidereal < 2 * Real.pi) :
    (calculate_subsolar_position ra sidereal dec).1 = degrees dec ∧
    (calculate_subsolar_position ra sidereal dec).2 =
      (if degrees (ra - sidereal) < -180 then degrees (ra - sidereal) + 360
       else if 180 < degrees (ra - sidereal) then degrees (ra - sidereal) - 360
       else degrees (ra - sidereal)) ∧
    -180 ≤ (calculate_subsolar_position ra sidereal dec).2 ∧
    (calculate_subsolar_position ra sidereal dec).2 ≤ 180 := by
  have hpi := Real.pi_pos
  have hks : (0 : ℝ) < 180 / Real.pi := by positivity
  have htop : degrees (ra - sidereal) < 360 := by
    unfold degrees
    have h1 : ra - sidereal < 2 * Real.pi := by linarith
    have h2 : (ra - sidereal) * (180 / Real.pi) <
        (2 * Real.pi) * (180 / Real.pi) := by
      exact mul_lt_mul_of_pos_right h1 hks
    have h3 : (2 * Real.pi) * (180 / Real.pi) = 360 := by
      field_simp
      ring
    linarith
  have hbot : -360 < degrees (ra - sidereal) := by
    unfold degrees
    have h1 : -(2 * Real.pi) < ra - sidereal := by linarith
    have h2 : (-(2 * Real.pi)) * (180 / Real.pi) <
        (ra - sidereal) * (180 / Real.pi) := by
      exact mul_lt_mul_of_pos_right h1 hks
    have h3 : (-(2 * Real.pi)) * (180 / Real.pi) = -360 := by
      field_simp
      ring
    linarith
  refine ⟨rfl, rfl, ?_, ?_⟩
  · unfold calculate_subsolar_position
    dsimp only
    split
    · linarith
    · split
      · linarith
      · linarith
  · unfold calculate_subsolar_position
    dsimp only
    split
    · linarith
    · split
      · linarith
      · linarith

/-- C8 witness: the amended sub-solar facts at right ascension 0, sidereal
time 0 and declination 0, a valid ephemeris sample. -/
theorem subsolar_position_spec_witness :
    (calculate_subsolar_position 0 0 0).1 = degrees 0 ∧
    -180 ≤ (calculate_subsolar_position 0 0 0).2 ∧
    (calculate_subsolar_position 0 0 0).2 ≤ 180 :=
  ⟨(subsolar_position_spec 0 0 0 (le_refl 0)
      (by linarith [Real.pi_pos]) (le_refl 0) (by linarith [Real.pi_pos])).1,
   (subsolar_position_spec 0 0 0 (le_refl 0)
      (by linarith [Real.pi_pos]) (le_refl 0) (by linarith [Real.pi_pos])).2.2.1,
   (subsolar_position_spec 0 0 0 (le_refl 0)
      (by linarith [Real.pi_pos]) (le_refl 0) (by linarith [Real.pi_pos])).2.2.2⟩

/-- Equirectangular texture image: height, width, and the pixel samples
indexed by row, column and channel. -/
structure ImageArr where
  Hdim : ℕ
  Wdim : ℕ
  pix : ℕ → ℕ → ℕ → ℝ

/-- Embedding of _DayNightMapCreator.convert_to_float_image: divides every
sample by 255. -/
def convert_to_float_image (img : ImageArr) : ImageArr :=
  ⟨img.Hdim, img.Wdim, fun i j c => img.pix i j c / 255⟩

/-- The state stored by a constructed _DayNightMapCreator. -/
structure DayNightMapCreator where
  sub_solar_latitude : ℝ
  sub_solar_longitude : ℝ
  day_map : ImageArr
  night_map : ImageArr

/-- Returns true when an Except value carries no error. -/
def exceptOk {e a : Type} : Except e a → Bool
  | Except.ok _ => true
  | Except.error _ => false

/-- Embedding of the _DayNightMapCreator constructor body in the exception
monad, with the two loaded texture files abstracted as arguments: it
stores the coordinates and the two textures scaled by 1/255. The body
contains no raise statement and performs no shape comparison, so it never
produces an error. -/
def mkDayNightMapCreator (lat lon : ℝ) (day_img night_img : ImageArr) :
    Except String DayNightMapCreator :=
  Except.ok ⟨lat, lon, convert_to_float_image day_img,
    convert_to_float_image night_img⟩

/-- C10 counterexample: constructing the map builder with a 1 by 1 day
texture and a 2 by 2 night texture (shapes differ) succeeds: no
DimensionMismatchError, or any error at all, is raised at construction. -/
theorem creator_accepts_mismatched_shapes :
    (ImageArr.mk 1 1 (fun _ _ _ => 0)).Hdim ≠
      (ImageArr.mk 2 2 (fun _ _ _ => 0)).Hdim ∧
    exceptOk (mkDayNightMapCreator 0 0 (ImageArr.mk 1 1 (fun _ _ _ => 0))
      (ImageArr.mk 2 2 (fun _ _ _ => 0))) = true := by
  constructor
  · norm_num
  · rfl

/-- C10 amended: construction performs no shape validation and never
fails: even when the day and night textures differ in shape, the map
builder is constructed successfully, storing the sub-solar coordinates
and both scaled textures unchecked; no dimension check exists at
construction, so a mismatch could surface only later, at blending. -/
theorem creator_no_shape_check (lat lon : ℝ) (day_img night_img : ImageArr)
    (hmis : day_img.Hdim ≠ night_img.Hdim) :
    exceptOk (mkDayNightMapCreator lat lon day_img night_img) = true ∧
    mkDayNightMapCreator lat lon day_img night_img =
      Except.ok ⟨lat, lon, convert_to_float_image day_img,
        convert_to_float_image night_img⟩ :=
  ⟨rfl, rfl⟩

/-- C10 witness: the no-check facts evaluated at concrete mismatched
textures. -/
theorem creator_no_shape_check_witness :
    exceptOk (mkDayNightMapCreator 5 6 (ImageArr.mk 3 4 (fun _ _ _ => 1))
      (ImageArr.mk 7 8 (fun _ _ _ => 2))) = true :=
  (creator_no_shape_check 5 6 (ImageArr.mk 3 4 (fun _ _ _ => 1))
    (ImageArr.mk 7 8 (fun _ _ _ => 2)) (by norm_num)).1

/-- Embedding of _FlightParameters.dateline_fix on a list of
(longitude, latitude) pairs: when some longitude lies outside the closed
interval from -175 to 175, every negative longitude is shifted up by 360;
otherwise the list is returned unchanged. Latitudes are never altered. -/
def dateline_fix (coords : List (ℝ × ℝ)) : List (ℝ × ℝ) :=
  if ∃ p ∈ coords, p.1 < -175 ∨ 175 < p.1 then
    coords.map (fun p => (if p.1 < 0 then p.1 + 360 else p.1, p.2))
  else coords

/-- Helper: dateline_fix preserves the list length. -/
lemma dateline_fix_length (coords : List (ℝ × ℝ)) :
    (dateline_fix coords).length = coords.length := by
  unfold dateline_fix
  split
  · exact List.length_map _ _
  · rfl

/-- Helper: when every longitude is nonnegative, dateline_fix returns the
list unchanged (the triggered branch shifts only negative longitudes). -/
lemma dateline_fix_of_nonneg {l : List (ℝ × ℝ)} (h : ∀ p ∈ l, 0 ≤ p.1) :
    dateline_fix l = l := by
  unfold dateline_fix
  split
  · have hid : ∀ p ∈ l,
        (fun p : ℝ × ℝ => (if p.1 < 0 then p.1 + 360 else p.1, p.2)) p = id p := by
      intro p hp
      simp [if_neg (not_lt.mpr (h p hp))]
    rw [List.map_congr_left hid, List.map_id]
  · rfl

/-- Helper: when every longitude lies in the closed interval from -175 to
175, the trigger condition fails and dateline_fix is the identity. -/
lemma dateline_fix_of_bounded {l : List (ℝ × ℝ)}
    (h : ∀ p ∈ l, -175 ≤ p.1 ∧ p.1 ≤ 175) : dateline_fix l = l := by
  unfold dateline_fix
  rw [if_neg]
  push_neg
  intro p hp
  obtain ⟨h1, h2⟩ := h p hp
  exact ⟨by linarith, by linarith⟩

/-- C6 confirmed: if some longitude is below -175 or above 175, every
negative longitude is shifted by plus 360 and all other entries, latitudes
included, are unchanged; if no longitude is outside the band the list is
returned unchanged; and on a concrete path crossing from 179 to -179 the
corrected longitude sequence is strictly monotonic with no 360 jump and
differs from the original only at the entries that were negative. -/
theorem dateline_fix_spec (coords : List (ℝ × ℝ)) :
    ((∃ p ∈ coords, p.1 < -175 ∨ 175 < p.1) →
      dateline_fix coords =
        coords.map (fun p => (if p.1 < 0 then p.1 + 360 else p.1, p.2))) ∧
    ((∀ p ∈ coords, -175 ≤ p.1 ∧ p.1 ≤ 175) → dateline_fix coords = coords) ∧
    dateline_fix
        [((179 : ℝ), (10 : ℝ)), (179.5, 11), (-179.8, 12), (-179.3, 13)] =
      [((179 : ℝ), (10 : ℝ)), (179.5, 11), (-179.8 + 360, 12),
        (-179.3 + 360, 13)] ∧
    List.Chain' (fun a b : ℝ => a < b)
      ([((179 : ℝ), (10 : ℝ)), (179.5, 11), (-179.8 + 360, 12),
        (-179.3 + 360, 13)].map Prod.fst) := by
  refine ⟨fun h => ?_, fun h => dateline_fix_of_bounded h, ?_, ?_⟩
  · unfold dateline_fix
    rw [if_pos h]
  · have htrig : ∃ p ∈
        [((179 : ℝ), (10 : ℝ)), (179.5, 11), (-179.8, 12), (-179.3, 13)],
        p.1 < -175 ∨ 175 < p.1 := ⟨(179, 10), by simp, Or.inr (by norm_num)⟩
    unfold dateline_fix
    rw [if_pos htrig]
    simp only [List.map]
    rw [if_neg (by norm_num), if_neg (by norm_num), if_pos (by norm_num),
      if_pos (by norm_num)]
  · simp only [List.map, List.chain'_cons, List.chain'_singleton, and_true]
    norm_num

/-- C6 witness: the general branches of the dateline fix evaluated on a
concrete triggered list and a concrete untriggered list. -/
theorem dateline_fix_spec_witness :
    dateline_fix [((-10 : ℝ), (0 : ℝ)), (179, 1)] =
      [((-10 : ℝ), (0 : ℝ)), (179, 1)].map
        (fun p => (if p.1 < 0 then p.1 + 360 else p.1, p.2)) ∧
    dateline_fix [((5 : ℝ), (2 : ℝ))] = [((5 : ℝ), (2 : ℝ))] :=
  ⟨(dateline_fix_spec [((-10 : ℝ), (0 : ℝ)), (179, 1)]).1
      ⟨(179, 1), by simp, Or.inr (by norm_num)⟩,
   (dateline_fix_spec [((5 : ℝ), (2 : ℝ))]).2.1 (by
      intro p hp
      simp at hp
      rw [hp]
      norm_num)⟩

/-- Embedding of the frame count computed in _FlightParameters.__init__:
the flight duration in whole seconds divided by 60 (floor division, the
int truncation of a positive float) plus 1. -/
def n_frames (duration_seconds : ℕ) : ℕ := duration_seconds / 60 + 1

/-- Models pyproj Geod.npts as documented: given the geodesic between the
departure and arrival points, abstracted here as its parametrization
interp over the unit interval with interp 0 the departure point and
interp 1 the arrival point, it returns npts equally spaced intermediate
points along the geodesic; the two endpoints themselves are not included,
so point i sits at fraction (i + 1) / (npts + 1). -/
def geod_npts (interp : ℝ → ℝ × ℝ) (npts : ℕ) : List (ℝ × ℝ) :=
  (List.range npts).map
    (fun (i : ℕ) => interp (((i : ℝ) + 1) / ((npts : ℝ) + 1)))

/-- Embedding of _FlightParameters.calculate_flight_path: the npts sample
of the geodesic, passed through the dateline fix. -/
def calculate_flight_path (interp : ℝ → ℝ × ℝ) (nf : ℕ) : List (ℝ × ℝ) :=
  dateline_fix (geod_npts interp nf)

/-- Helper: the flight path has exactly nf points. -/
lemma calculate_flight_path_length (interp : ℝ → ℝ × ℝ) (nf : ℕ) :
    (calculate_flight_path interp nf).length = nf := by
  unfold calculate_flight_path geod_npts
  rw [dateline_fix_length, List.length_map, List.length_range]

/-- C3 counterexample: for the geodesic from (0, 0) to (90, 0) sampled
with a 60 second flight (frame count 2), the first flight-path point is
(30, 0), one third of the way along, and not the departure point (0, 0):
Geod.npts excludes the endpoints. -/
theorem flight_path_first_point_not_departure :
    (calculate_flight_path (fun t => (90 * t, 0)) (n_frames 60)).headD
        (0, 0) = (30, 0) ∧
    (fun t : ℝ => ((90 * t : ℝ), (0 : ℝ))) 0 = (0, 0) ∧
    ((30 : ℝ), (0 : ℝ)) ≠ ((0 : ℝ), (0 : ℝ)) := by
  have h2 : n_frames 60 = 2 := rfl
  have hg : geod_npts (fun t : ℝ => ((90 * t : ℝ), (0 : ℝ))) 2 =
      [(30, 0), (60, 0)] := by
    unfold geod_npts
    norm_num [List.range_succ]
  refine ⟨?_, by norm_num, by norm_num⟩
  rw [h2]
  unfold calculate_flight_path
  rw [hg, dateline_fix_of_bounded (by
    intro p hp
    simp at hp
    rcases hp with h | h <;> rw [h] <;> norm_num)]
  rfl

/-- C3 amended: for a flight with arrival strictly after departure,
frame_count is the duration in seconds floor-divided by 60 plus 1 (197
for a 196 minute flight), and flight_path returns an ordered sequence of
exactly frame_count points; but the points are the equally spaced
intermediate geodesic samples with the endpoints excluded: away from the
dateline, point i is interp of (i + 1) / (frame_count + 1), so the first
point is one step past the departure airport and the last point one step
short of the arrival airport, not the airports themselves. -/
theorem flight_path_shape (interp : ℝ → ℝ × ℝ) (secs : ℕ) (hpos : 0 < secs) :
    n_frames secs = secs / 60 + 1 ∧
    n_frames 11760 = 197 ∧
    (calculate_flight_path interp (n_frames secs)).length = n_frames secs ∧
    ((∀ p ∈ geod_npts interp (n_frames secs), -175 ≤ p.1 ∧ p.1 ≤ 175) →
      ∀ i, i < n_frames secs →
        (calculate_flight_path interp (n_frames secs)).getD i (0, 0) =
          interp (((i : ℝ) + 1) / ((n_frames secs : ℝ) + 1))) := by
  refine ⟨rfl, by norm_num [n_frames], calculate_flight_path_length _ _,
    fun hb i hi => ?_⟩
  unfold calculate_flight_path
  rw [dateline_fix_of_bounded hb]
  unfold geod_npts
  rw [List.getD_eq_getElem _ _ (by
    rw [List.length_map, List.length_range]
    exact hi)]
  rw [List.getElem_map, List.getElem_range]

/-- C3 witness: the amended flight-path facts for the constant geodesic at
the origin and a 60 second flight. -/
theorem flight_path_shape_witness :
    (calculate_flight_path (fun _ => ((0 : ℝ), (0 : ℝ))) (n_frames 60)).length
      = n_frames 60 ∧
    (calculate_flight_path (fun _ => ((0 : ℝ), (0 : ℝ)))
      (n_frames 60)).getD 0 (0, 0) = (0, 0) :=
  ⟨(flight_path_shape (fun _ => ((0 : ℝ), (0 : ℝ))) 60 (by norm_num)).2.2.1,
   (flight_path_shape (fun _ => ((0 : ℝ), (0 : ℝ))) 60 (by norm_num)).2.2.2
     (by
       intro p hp
       unfold geod_npts at hp
       simp at hp
       rw [hp.2]
       norm_num)
     0 (by norm_num [n_frames])⟩

/-- Models numpy linspace with endpoint inclusive: num samples from a to
b, sample i being a plus i times the step (b - a) / (num - 1). For
num = 1 the real-number convention that division by zero is zero
reproduces the numpy single-sample value a. -/
def linspace (a b : ℝ) (num : ℕ) : List ℝ :=
  (List.range num).map
    (fun (i : ℕ) => a + (i : ℝ) * ((b - a) / ((num : ℝ) - 1)))

/-- Embedding of _FlightParameters.calculate_camera_path: keeps the
flight-path longitudes, replaces the latitudes by the linspace from the
first to the last flight-path latitude, and applies the dateline fix. -/
def calculate_camera_path (fp : List (ℝ × ℝ)) : List (ℝ × ℝ) :=
  dateline_fix (List.zip (fp.map Prod.fst)
    (linspace ((fp.headD (0, 0)).2) ((fp.getLastD (0, 0)).2) fp.length))

/-- Helper: linspace returns exactly num samples. -/
lemma linspace_length (a b : ℝ) (num : ℕ) : (linspace a b num).length = num := by
  simp [linspace]

/-- Helper: the longitude of every point of the pre-fix camera list is a
flight-path longitude, so the second dateline fix never changes the
camera list when the flight-path longitudes are all nonnegative (the
already-unwrapped case) or all inside the band (the untriggered case). -/
lemma camera_path_fix_identity (fp : List (ℝ × ℝ))
    (hl : (∀ p ∈ fp, 0 ≤ p.1) ∨ (∀ p ∈ fp, -175 ≤ p.1 ∧ p.1 ≤ 175)) :
    calculate_camera_path fp = List.zip (fp.map Prod.fst)
      (linspace ((fp.headD (0, 0)).2) ((fp.getLastD (0, 0)).2) fp.length) := by
  unfold calculate_camera_path
  rcases hl with h | h
  · apply dateline_fix_of_nonneg
    intro p hp
    obtain ⟨x, y⟩ := p
    obtain ⟨hx, _⟩ := List.of_mem_zip hp
    obtain ⟨q, hq, hqx⟩ := List.mem_map.mp hx
    exact hqx ▸ h q hq
  · apply dateline_fix_of_bounded
    intro p hp
    obtain ⟨x, y⟩ := p
    obtain ⟨hx, _⟩ := List.of_mem_zip hp
    obtain ⟨q, hq, hqx⟩ := List.mem_map.mp hx
    exact hqx ▸ h q hq

/-- C7 confirmed: for a nonempty stored flight path whose longitudes are
all nonnegative or all inside the dateline band (every flight path
produced by dateline_fix from physical longitudes is of this form), the
camera path has the same length, exactly the same longitude sequence, and
latitudes forming the exact arithmetic progression with common difference
(last - first) / (length - 1) starting at the first flight-path latitude
and ending at the last flight-path latitude. -/
theorem camera_path_spec (fp : List (ℝ × ℝ)) (hne : fp ≠ [])
    (hl : (∀ p ∈ fp, 0 ≤ p.1) ∨ (∀ p ∈ fp, -175 ≤ p.1 ∧ p.1 ≤ 175)) :
    (calculate_camera_path fp).length = fp.length ∧
    (calculate_camera_path fp).map Prod.fst = fp.map Prod.fst ∧
    (∀ i, i < fp.length →
      ((calculate_camera_path fp).getD i (0, 0)).2 =
        (fp.headD (0, 0)).2 + (i : ℝ) *
          (((fp.getLastD (0, 0)).2 - (fp.headD (0, 0)).2) /
            ((fp.length : ℝ) - 1))) ∧
    ((calculate_camera_path fp).getD 0 (0, 0)).2 = (fp.headD (0, 0)).2 ∧
    ((calculate_camera_path fp).getD (fp.length - 1) (0, 0)).2 =
      (fp.getLastD (0, 0)).2 := by
  have hfix := camera_path_fix_identity fp hl
  have hmaplen : (fp.map Prod.fst).length = fp.length := List.length_map _ _
  have hlinlen : (linspace ((fp.headD (0, 0)).2) ((fp.getLastD (0, 0)).2)
      fp.length).length = fp.length := linspace_length _ _ _
  have hlen : (calculate_camera_path fp).length = fp.length := by
    rw [hfix, List.length_zip, hmaplen, hlinlen, min_self]
  have hpos : 0 < fp.length := List.length_pos.mpr hne
  have hform : ∀ i, i < fp.length →
      ((calculate_camera_path fp).getD i (0, 0)).2 =
        (fp.headD (0, 0)).2 + (i : ℝ) *
          (((fp.getLastD (0, 0)).2 - (fp.headD (0, 0)).2) /
            ((fp.length : ℝ) - 1)) := by
    intro i hi
    have hib : i < (calculate_camera_path fp).length := by rw [hlen]; exact hi
    rw [List.getD_eq_getElem _ _ hib]
    have hi1 : i < (fp.map Prod.fst).length := by rw [hmaplen]; exact hi
    have hi2 : i < (linspace ((fp.headD (0, 0)).2) ((fp.getLastD (0, 0)).2)
        fp.length).length := by rw [hlinlen]; exact hi
    simp only [hfix]
    rw [List.getElem_zip]
    simp [linspace]
  refine ⟨hlen, ?_, hform, ?_, ?_⟩
  · rw [hfix]
    exact List.map_fst_zip _ _ (by rw [hmaplen, hlinlen])
  · rw [hform 0 hpos]
    norm_num
  · rw [hform (fp.length - 1) (by omega)]
    rcases Nat.lt_or_ge fp.length 2 with h2 | h2
    · have h1 : fp.length = 1 := by omega
      obtain ⟨x, hx⟩ := List.length_eq_one.mp h1
      subst hx
      simp
    · have hcast : ((fp.length - 1 : ℕ) : ℝ) = (fp.length : ℝ) - 1 := by
        rw [Nat.cast_sub (by omega), Nat.cast_one]
      have hne0 : (fp.length : ℝ) - 1 ≠ 0 := by
        have : (2 : ℝ) ≤ (fp.length : ℝ) := by exact_mod_cast h2
        linarith
      rw [hcast]
      field_simp

/-- C7 witness: the camera-path facts for the concrete two-point flight
path from (0, 5) to (10, 7). -/
theorem camera_path_spec_witness :
    (calculate_camera_path [((0 : ℝ), (5 : ℝ)), (10, 7)]).map Prod.fst =
      [((0 : ℝ), (5 : ℝ)), (10, 7)].map Prod.fst ∧
    ((calculate_camera_path [((0 : ℝ), (5 : ℝ)), (10, 7)]).getD 0 (0, 0)).2 =
      ([((0 : ℝ), (5 : ℝ)), (10, 7)].headD (0, 0)).2 ∧
    ((calculate_camera_path [((0 : ℝ), (5 : ℝ)), (10, 7)]).getD 1 (0, 0)).2 =
      ([((0 : ℝ), (5 : ℝ)), (10, 7)].getLastD (0, 0)).2 :=
  ⟨(camera_path_spec [((0 : ℝ), (5 : ℝ)), (10, 7)] (by simp)
      (Or.inl (by
        intro p hp
        simp at hp
        rcases hp with h | h <;> rw [h] <;> norm_num))).2.1,
   (camera_path_spec [((0 : ℝ), (5 : ℝ)), (10, 7)] (by simp)
      (Or.inl (by
        intro p hp
        simp at hp
        rcases hp with h | h <;> rw [h] <;> norm_num))).2.2.2.1,
   (camera_path_spec [((0 : ℝ), (5 : ℝ)), (10, 7)] (by simp)
      (Or.inl (by
        intro p hp
        simp at hp
        rcases hp with h | h <;> rw [h] <;> norm_num))).2.2.2.2⟩

end MilPy
